import Mathlib

/-!
# File Context Resolver — verification of `src/index.js`

Shallow embedding of the context-resolution logic of the upload endpoint:
the document store (`fileCache`), the active-file reference (`activeFile`),
comparison mode (`compareMode`), the compare-by-topic question pattern
(the regular expression in `extractFileTopics`), the explicit-switch
phrases, and the context-materialization chain.

Strings are modelled by Lean `String` (a wrapper around `List Char`);
JavaScript `toLowerCase` is modelled per-character (faithful on ASCII,
which is all the literal patterns use).  The topic-inference call
(`determineFileContext`) is an external collaborator: its result is an
input of the model, lowercased on ingestion exactly as line 54 of the
source does.
-/

/-- A stored document: inferred topic (`context`) plus its full extracted
text (`content`).  Mirrors the objects pushed into `fileCache`. -/
structure Document where
  context : String
  content : String
deriving DecidableEq, Repr

/-- The process-wide mutable state of `src/index.js`:
`fileCache`, `activeFile`, `compareMode` (lines 27-29). -/
structure ServerState where
  fileCache : List Document
  activeFile : Option Document
  compareMode : Bool
deriving DecidableEq, Repr

/-- Per-character lowercasing, modelling JavaScript `toLowerCase`
(identical on ASCII input, which is all the matching literals use). -/
def lowerStr (s : String) : String :=
  String.mk (s.toList.map Char.toLower)

/-- Consume the literal `pat` from the front of `cs`; return the rest.
Models matching a literal piece of the regular expression. -/
def eatLit : List Char → List Char → Option (List Char)
  | [], cs => some cs
  | _ :: _, [] => none
  | p :: ps, c :: cs => if c = p then eatLit ps cs else none

/-- JavaScript `.` (no `s` flag): any character except a line
terminator (LF, CR, U+2028, U+2029). -/
def isDotChar (c : Char) : Bool :=
  !(c = '\n' || c = '\r' || c = Char.ofNat 0x2028 || c = Char.ofNat 0x2029)

/-- Substring test over characters: does `pat` occur contiguously in the
second list?  Models JavaScript `String.prototype.includes`. -/
def occursIn (pat : List Char) : List Char → Bool
  | [] => pat.isEmpty
  | c :: t => (eatLit pat (c :: t)).isSome || occursIn pat t

/-- JavaScript `s.includes(pat)` on our string model. -/
def strContains (s pat : String) : Bool :=
  occursIn pat.toList s.toList

/-- One fully-literal alternative of the tail
`" (and|with) (the )?file (about|with) "` followed by the greedy `(.+)`:
consume the literal, then capture the maximal nonempty run of
dot-characters as the second topic. -/
def tryTailBranch (lit : String) (cs : List Char) : Option (List Char) :=
  match eatLit lit.toList cs with
  | some rest =>
    let run := rest.takeWhile isDotChar
    if run.isEmpty then none else some run
  | none => none

/-- Match `" (and|with) (the )?file (about|with) (.+)"` after the lazy
first topic, returning the second topic.  The eight literal alternatives
are tried in backtracking priority order: `(and|with)` outermost
(alternation order), then the optional `(the )?` (greedy: present
first), then `(about|with)`. -/
def matchTail (cs : List Char) : Option (List Char) :=
  tryTailBranch " and the file about " cs <|>
  tryTailBranch " and the file with " cs <|>
  tryTailBranch " and file about " cs <|>
  tryTailBranch " and file with " cs <|>
  tryTailBranch " with the file about " cs <|>
  tryTailBranch " with the file with " cs <|>
  tryTailBranch " with file about " cs <|>
  tryTailBranch " with file with " cs

/-- The lazy `(.+?)` for the first topic: grow the capture one
dot-character at a time (at least one), and after each character try the
tail of the pattern on the remainder; the shortest capture for which the
tail matches wins, exactly as lazy quantifiers backtrack. -/
def lazyScan : List Char → List Char → Option (List Char × List Char)
  | _, [] => none
  | acc, c :: cs =>
    if isDotChar c then
      match matchTail cs with
      | some t2 => some (acc ++ [c], t2)
      | none => lazyScan (acc ++ [c]) cs
    else none

/-- One fully-literal alternative of the head
`"compare (the )?file (about|with) "`, followed by the lazy first
topic and the tail. -/
def tryHeadBranch (lit : String) (cs : List Char) : Option (List Char × List Char) :=
  match eatLit lit.toList cs with
  | some rest => lazyScan [] rest
  | none => none

/-- Match the whole pattern at a fixed start position.  The four literal
alternatives of the head are tried in backtracking priority order:
`(the )?` present first, then `(about|with)` in alternation order. -/
def matchHead (cs : List Char) : Option (List Char × List Char) :=
  tryHeadBranch "compare the file about " cs <|>
  tryHeadBranch "compare the file with " cs <|>
  tryHeadBranch "compare file about " cs <|>
  tryHeadBranch "compare file with " cs

/-- Leftmost-match search: try the pattern at each start position in
order, as an unanchored JavaScript regex match does. -/
def scanPositions : List Char → Option (List Char × List Char)
  | [] => none
  | c :: cs => matchHead (c :: cs) <|> scanPositions cs

/-- `extractFileTopics` (lines 32-39): match
`/compare (the )?file (about|with) (.+?) (and|with) (the )?file (about|with) (.+)/i`
against the question and return the two captured topics, lowercased
(case-insensitive matching is realized by lowercasing the subject first;
the captures are then already lowercase, as `match[3].toLowerCase()` and
`match[7].toLowerCase()` produce). -/
def extractFileTopics (q : String) : Option (String × String) :=
  match scanPositions (lowerStr q).toList with
  | some (t1, t2) => some (String.mk t1, String.mk t2)
  | none => none

/-- `fileCache.find(file => file.context.includes(topic))` (lines 86-87). -/
def findByTopic (cache : List Document) (topic : String) : Option Document :=
  cache.find? (fun f => strContains f.context topic)

/-- The composed comparison context (line 90). -/
def comparisonBlock (f1 f2 : Document) : String :=
  "Comparison between files about " ++ f1.context ++ " and " ++ f2.context ++
  ":\n\nFile 1 (" ++ f1.context ++ "):\n" ++ f1.content ++
  "\n\nFile 2 (" ++ f2.context ++ "):\n" ++ f2.content

/-- The composed both-files context (line 114). -/
def bothFilesBlock (c1 c2 : String) : String :=
  "Both Files:\n\nFirst File:\n" ++ c1 ++ "\n\nSecond File:\n" ++ c2

/-- The general-question context (line 119). -/
def generalQuestionBlock (q : String) : String :=
  "General Question:\n\n" ++ q

/-- Outcome of resolving one request.  `ok ctx` means the handler
proceeds to the completion call with `ctx` as the file-content context;
`comparisonUnavailable` is the early `return res.status(400)` of line 92
(no completion call happens); `crash` marks a would-be TypeError
(reading `.content` of `undefined`), surfaced as the 500 catch-all. -/
inductive Outcome where
  | ok (ctx : String)
  | comparisonUnavailable
  | crash
deriving DecidableEq, Repr

/-- The explicit-switch step (lines 96-108).  `question &&` makes the
empty string skip every check (falsy); phrases are tested on the
lowercased question in source order, so `"first file"` wins. -/
def switchStep (st : ServerState) (q : String) : ServerState :=
  if q ≠ "" ∧ strContains (lowerStr q) "first file" = true then
    { st with activeFile := st.fileCache[0]?, compareMode := false }
  else if q ≠ "" ∧ strContains (lowerStr q) "second file" = true then
    { st with activeFile := st.fileCache[1]?, compareMode := false }
  else if q ≠ "" ∧ strContains (lowerStr q) "both files" = true then
    { st with compareMode := true }
  else st

/-- Context materialization (lines 110-124), in source priority order:
both-files mode with at least two stored documents, then the active
document, then the bare-question fallback, then the latest stored
document.  Out-of-range accesses become `crash`. -/
def materialize (st : ServerState) (q : String) (fileUploaded : Bool) : Outcome :=
  if st.compareMode = true ∧ 2 ≤ st.fileCache.length then
    match st.fileCache[0]?, st.fileCache[1]? with
    | some a, some b => .ok (bothFilesBlock a.content b.content)
    | _, _ => .crash
  else
    match st.activeFile with
    | some a => .ok a.content
    | none =>
      if fileUploaded = false ∧ st.fileCache = [] then
        .ok (generalQuestionBlock q)
      else
        match st.fileCache.getLast? with
        | some last => .ok last.content
        | none => .crash

/-- `resolveContext` (lines 82-125): first the compare-by-topic pattern
(its failure short-circuits with the 400 error and no state change in
this step), otherwise the switch step followed by materialization.
Returns the outcome together with the post-request resolution state. -/
def resolveContext (st : ServerState) (q : String) (fileUploaded : Bool) :
    Outcome × ServerState :=
  match extractFileTopics q with
  | some (t1, t2) =>
    match findByTopic st.fileCache t1, findByTopic st.fileCache t2 with
    | some f1, some f2 => (.ok (comparisonBlock f1 f2), st)
    | _, _ => (.comparisonUnavailable, st)
  | none =>
    let st2 := switchStep st q
    (materialize st2 q fileUploaded, st2)

/-- Document construction on upload: the externally inferred topic is
lowercased (line 54) and stored with the extracted content (line 77). -/
def mkDocument (inferredTopic content : String) : Document :=
  { context := lowerStr inferredTopic, content := content }

/-- `ingest` (lines 77-78): push the document and point `activeFile` at
the last element of the grown cache. -/
def ingest (st : ServerState) (d : Document) : ServerState :=
  { st with
    fileCache := st.fileCache ++ [d]
    activeFile := (st.fileCache ++ [d]).getLast? }

/-- The ingestion phase of the handler (lines 63-79): ingest the
uploaded document, if any.  The upload is modelled as the externally
inferred raw topic paired with the extracted text. -/
def afterIngest (st : ServerState) (upload : Option (String × String)) : ServerState :=
  match upload with
  | some (topic, content) => ingest st (mkDocument topic content)
  | none => st

/-- The whole `/upload` handler body relevant to resolution
(lines 57-131): ingestion followed by `resolveContext`. -/
def handleUpload (st : ServerState) (upload : Option (String × String)) (q : String) :
    Outcome × ServerState :=
  resolveContext (afterIngest st upload) q upload.isSome

example : extractFileTopics "Compare the file about AI and the file about Blockchain" =
    some ("ai", "blockchain") := by decide

example : extractFileTopics "compare file with x and file with y z" =
    some ("x", "y z") := by decide

example : extractFileTopics "tell me about both files" = none := by decide

/-! ## Helper lemmas about the string primitives -/

theorem eatLit_self_append (p r : List Char) : eatLit p (p ++ r) = some r := by
  induction p with
  | nil => rfl
  | cons c cs ih => simp [eatLit, ih]

theorem occursIn_nil (r : List Char) : occursIn [] r = true := by
  cases r <;> simp [occursIn, eatLit, List.isEmpty]

theorem occursIn_self_append (p r : List Char) : occursIn p (p ++ r) = true := by
  cases p with
  | nil => simpa using occursIn_nil r
  | cons c cs =>
    have h := eatLit_self_append (c :: cs) r
    simp only [List.cons_append, occursIn, Bool.or_eq_true]
    exact Or.inl (by rw [show eatLit (c :: cs) (c :: cs.append r) = some r from h]; rfl)

theorem occursIn_append_of_right (p l1 l2 : List Char) (h : occursIn p l2 = true) :
    occursIn p (l1 ++ l2) = true := by
  induction l1 with
  | nil => simpa using h
  | cons c t ih => simp [occursIn, ih]

theorem eatLit_extend (p s r l2 : List Char) (h : eatLit p s = some r) :
    eatLit p (s ++ l2) = some (r ++ l2) := by
  induction p generalizing s with
  | nil =>
    simp [eatLit] at h
    subst h
    rfl
  | cons c cs ih =>
    cases s with
    | nil => simp [eatLit] at h
    | cons x xs =>
      simp only [eatLit] at h ⊢
      by_cases hx : x = c
      · rw [if_pos hx] at h ⊢
        exact ih xs h
      · rw [if_neg hx] at h
        exact absurd h (by simp)

theorem occursIn_append_of_left (p l1 l2 : List Char) (h : occursIn p l1 = true) :
    occursIn p (l1 ++ l2) = true := by
  induction l1 with
  | nil =>
    cases p with
    | nil => simpa using occursIn_nil l2
    | cons x xs => simp [occursIn, List.isEmpty] at h
  | cons c t ih =>
    simp only [occursIn, Bool.or_eq_true] at h
    simp only [List.cons_append, occursIn, Bool.or_eq_true]
    rcases h with h | h
    · obtain ⟨r, hr⟩ := Option.isSome_iff_exists.mp h
      exact Or.inl (by simpa using congrArg Option.isSome (eatLit_extend p (c :: t) r l2 hr))
    · exact Or.inr (ih h)

theorem strToList_append (a b : String) : (a ++ b).toList = a.toList ++ b.toList := rfl

theorem strContains_refl (p : String) : strContains p p = true := by
  have := occursIn_self_append p.toList []
  simpa [strContains] using this

theorem strContains_app_l (s t p : String) (h : strContains s p = true) :
    strContains (s ++ t) p = true :=
  occursIn_append_of_left p.toList s.toList t.toList h

theorem strContains_app_r (s t p : String) (h : strContains t p = true) :
    strContains (s ++ t) p = true :=
  occursIn_append_of_right p.toList s.toList t.toList h

/-! ## Helper lemmas about `resolveContext` -/

theorem resolveContext_compare_fail (st : ServerState) (q : String) (u : Bool)
    (t1 t2 : String) (hm : extractFileTopics q = some (t1, t2))
    (h : findByTopic st.fileCache t1 = none ∨ findByTopic st.fileCache t2 = none) :
    resolveContext st q u = (Outcome.comparisonUnavailable, st) := by
  rcases h with h | h
  · simp only [resolveContext, hm, h]
  · cases hx : findByTopic st.fileCache t1 <;> simp only [resolveContext, hm, h, hx]

theorem resolveContext_compare_ok (st : ServerState) (q : String) (u : Bool)
    (t1 t2 : String) (f1 f2 : Document) (hm : extractFileTopics q = some (t1, t2))
    (h1 : findByTopic st.fileCache t1 = some f1)
    (h2 : findByTopic st.fileCache t2 = some f2) :
    resolveContext st q u = (Outcome.ok (comparisonBlock f1 f2), st) := by
  simp only [resolveContext, hm, h1, h2]

theorem resolveContext_no_compare (st : ServerState) (q : String) (u : Bool)
    (hm : extractFileTopics q = none) :
    resolveContext st q u = (materialize (switchStep st q) q u, switchStep st q) := by
  simp only [resolveContext, hm]

theorem switchStep_fileCache (st : ServerState) (q : String) :
    (switchStep st q).fileCache = st.fileCache := by
  unfold switchStep
  split
  · rfl
  · split
    · rfl
    · split <;> rfl

theorem ne_empty_of_strContains_lower (q p : String) (hp : p.toList ≠ [])
    (h : strContains (lowerStr q) p = true) : q ≠ "" := by
  intro hq
  subst hq
  rw [show lowerStr "" = "" from rfl] at h
  cases hpl : p.toList with
  | nil => exact hp hpl
  | cons x xs =>
    simp only [strContains, hpl, show ("" : String).toList = [] from rfl,
      occursIn, List.isEmpty] at h
    exact Bool.noConfusion h

theorem switchStep_first (st : ServerState) (q : String)
    (h1 : strContains (lowerStr q) "first file" = true) :
    switchStep st q = { st with activeFile := st.fileCache[0]?, compareMode := false } := by
  have hq : q ≠ "" := ne_empty_of_strContains_lower q _ (by decide) h1
  unfold switchStep
  rw [if_pos ⟨hq, h1⟩]

theorem switchStep_second (st : ServerState) (q : String)
    (h1 : strContains (lowerStr q) "first file" = false)
    (h2 : strContains (lowerStr q) "second file" = true) :
    switchStep st q = { st with activeFile := st.fileCache[1]?, compareMode := false } := by
  have hq : q ≠ "" := ne_empty_of_strContains_lower q _ (by decide) h2
  unfold switchStep
  rw [if_neg (fun hh => by rw [h1] at hh; exact Bool.noConfusion hh.2), if_pos ⟨hq, h2⟩]

theorem switchStep_both (st : ServerState) (q : String)
    (h1 : strContains (lowerStr q) "first file" = false)
    (h2 : strContains (lowerStr q) "second file" = false)
    (hb : strContains (lowerStr q) "both files" = true) :
    switchStep st q = { st with compareMode := true } := by
  have hq : q ≠ "" := ne_empty_of_strContains_lower q _ (by decide) hb
  unfold switchStep
  rw [if_neg (fun hh => by rw [h1] at hh; exact Bool.noConfusion hh.2),
      if_neg (fun hh => by rw [h2] at hh; exact Bool.noConfusion hh.2),
      if_pos ⟨hq, hb⟩]

theorem switchStep_none (st : ServerState) (q : String)
    (h1 : strContains (lowerStr q) "first file" = false)
    (h2 : strContains (lowerStr q) "second file" = false)
    (hb : strContains (lowerStr q) "both files" = false) :
    switchStep st q = st := by
  unfold switchStep
  rw [if_neg (fun hh => by rw [h1] at hh; exact Bool.noConfusion hh.2),
      if_neg (fun hh => by rw [h2] at hh; exact Bool.noConfusion hh.2),
      if_neg (fun hh => by rw [hb] at hh; exact Bool.noConfusion hh.2)]

theorem getLast?_cons_isSome (a : Document) (l : List Document) :
    ∃ x, (a :: l).getLast? = some x := by
  induction l generalizing a with
  | nil => exact ⟨a, rfl⟩
  | cons b t ih =>
    obtain ⟨x, hx⟩ := ih b
    exact ⟨x, by rw [List.getLast?_cons_cons, hx]⟩

theorem materialize_ne_crash (cache : List Document) (active : Option Document)
    (cm : Bool) (q : String) (u : Bool) (h : u = true → cache ≠ []) :
    materialize ⟨cache, active, cm⟩ q u ≠ Outcome.crash := by
  rcases cache with _ | ⟨a, rest⟩
  · have hu : u = false := by
      cases u
      · rfl
      · exact absurd rfl (h rfl)
    subst hu
    cases active <;> simp [materialize]
  · rcases rest with _ | ⟨b, t⟩
    · obtain ⟨x, hx⟩ := getLast?_cons_isSome a []
      cases active <;> cases cm <;> simp [materialize, hx]
    · obtain ⟨x, hx⟩ := getLast?_cons_isSome a (b :: t)
      cases active <;> cases cm <;> simp [materialize, hx]

theorem materialize_ne_unavailable (st : ServerState) (q : String) (u : Bool) :
    materialize st q u ≠ Outcome.comparisonUnavailable := by
  unfold materialize
  split
  · split <;> simp
  · split
    · simp
    · split
      · simp
      · split <;> simp

theorem resolveContext_ne_crash (st : ServerState) (q : String) (u : Bool)
    (h : u = true → st.fileCache ≠ []) :
    (resolveContext st q u).1 ≠ Outcome.crash := by
  cases hm : extractFileTopics q with
  | none =>
    rw [resolveContext_no_compare st q u hm]
    show materialize (switchStep st q) q u ≠ _
    have hne : u = true → (switchStep st q).fileCache ≠ [] := by
      intro hu
      rw [switchStep_fileCache]
      exact h hu
    rcases hsw : switchStep st q with ⟨c2, a2, m2⟩
    rw [hsw] at hne
    exact materialize_ne_crash c2 a2 m2 q u hne
  | some pair =>
    obtain ⟨t1, t2⟩ := pair
    cases h1 : findByTopic st.fileCache t1 with
    | none =>
      rw [resolveContext_compare_fail st q u t1 t2 hm (Or.inl h1)]
      simp
    | some f1 =>
      cases h2 : findByTopic st.fileCache t2 with
      | none =>
        rw [resolveContext_compare_fail st q u t1 t2 hm (Or.inr h2)]
        simp
      | some f2 =>
        rw [resolveContext_compare_ok st q u t1 t2 f1 f2 hm h1 h2]
        simp

theorem materialize_both (st : ServerState) (q : String) (u : Bool)
    (d1 d2 : Document) (rest : List Document) (hcm : st.compareMode = true)
    (hc : st.fileCache = d1 :: d2 :: rest) :
    materialize st q u = Outcome.ok (bothFilesBlock d1.content d2.content) := by
  unfold materialize
  rw [hc, hcm, if_pos ⟨rfl, by simp⟩]
  simp

/-! ## Claims -/

/-- C1: for every question matching the compare-by-topic pattern where at
least one extracted topic has no stored document whose topic contains it
as a substring, `resolveContext` fails with the `ComparisonUnavailable`
error (the client-error 400 return of line 92) and no answer-completion
call is performed (the outcome is not `ok _`, the only outcome that
reaches the completion call). -/
theorem C1_comparison_unavailable (st : ServerState) (u : Bool) (q t1 t2 : String)
    (hm : extractFileTopics q = some (t1, t2))
    (hfail : (∀ d ∈ st.fileCache, strContains d.context t1 = false) ∨
             (∀ d ∈ st.fileCache, strContains d.context t2 = false)) :
    (resolveContext st q u).1 = Outcome.comparisonUnavailable ∧
    ∀ ctx, (resolveContext st q u).1 ≠ Outcome.ok ctx := by
  have hnone : findByTopic st.fileCache t1 = none ∨ findByTopic st.fileCache t2 = none := by
    rcases hfail with h | h
    · exact Or.inl (List.find?_eq_none.mpr (fun x hx => by simp [h x hx]))
    · exact Or.inr (List.find?_eq_none.mpr (fun x hx => by simp [h x hx]))
  have he := resolveContext_compare_fail st q u t1 t2 hm hnone
  refine ⟨by rw [he], fun ctx hc => ?_⟩
  rw [he] at hc
  exact Outcome.noConfusion hc

/-- Witness for C1 at a concrete input: one stored document about "ai
stuff", question "compare file with ai and file with ml"; "ml" resolves
to no document, so the comparison fails. -/
theorem C1_comparison_unavailable_witness :
    (resolveContext ⟨[⟨"ai stuff", "c1"⟩], none, false⟩
      "compare file with ai and file with ml" false).1 = Outcome.comparisonUnavailable :=
  (C1_comparison_unavailable ⟨[⟨"ai stuff", "c1"⟩], none, false⟩ false
    "compare file with ai and file with ml" "ai" "ml" (by decide)
    (Or.inr (by decide))).1

/-- C2: for every question matching the compare-by-topic pattern where
both topics resolve to stored documents (first store element whose topic
contains each topic as a substring, i.e. `findByTopic` succeeds), the
resulting context block contains the full content of both documents and
both inferred topics, with the content of the first document before the
second. -/
theorem C2_comparison_context (st : ServerState) (u : Bool) (q t1 t2 : String)
    (f1 f2 : Document) (hm : extractFileTopics q = some (t1, t2))
    (h1 : findByTopic st.fileCache t1 = some f1)
    (h2 : findByTopic st.fileCache t2 = some f2) :
    (resolveContext st q u).1 = Outcome.ok (comparisonBlock f1 f2) ∧
    strContains (comparisonBlock f1 f2) f1.content = true ∧
    strContains (comparisonBlock f1 f2) f2.content = true ∧
    strContains (comparisonBlock f1 f2) f1.context = true ∧
    strContains (comparisonBlock f1 f2) f2.context = true ∧
    (∃ l1 l2 : List Char, (comparisonBlock f1 f2).toList =
      l1 ++ f1.content.toList ++ l2 ++ f2.content.toList) := by
  refine ⟨by rw [resolveContext_compare_ok st q u t1 t2 f1 f2 hm h1 h2], ?_, ?_, ?_, ?_, ?_⟩
  · unfold comparisonBlock
    apply strContains_app_l
    apply strContains_app_l
    apply strContains_app_l
    apply strContains_app_l
    exact strContains_app_r _ _ _ (strContains_refl _)
  · unfold comparisonBlock
    exact strContains_app_r _ _ _ (strContains_refl _)
  · unfold comparisonBlock
    apply strContains_app_l
    apply strContains_app_l
    apply strContains_app_l
    apply strContains_app_l
    apply strContains_app_l
    apply strContains_app_l
    exact strContains_app_r _ _ _ (strContains_refl _)
  · unfold comparisonBlock
    apply strContains_app_l
    apply strContains_app_l
    exact strContains_app_r _ _ _ (strContains_refl _)
  · refine ⟨"Comparison between files about ".toList ++ f1.context.toList ++
      " and ".toList ++ f2.context.toList ++ ":\n\nFile 1 (".toList ++
      f1.context.toList ++ "):\n".toList,
      "\n\nFile 2 (".toList ++ f2.context.toList ++ "):\n".toList, ?_⟩
    simp [comparisonBlock, strToList_append, List.append_assoc]

/-- Witness for C2 at a concrete input: two stored documents about "ai"
and "ml"; the compare question resolves both and the handler answers
with the composed comparison block. -/
theorem C2_comparison_context_witness :
    (resolveContext ⟨[⟨"ai", "A"⟩, ⟨"ml", "B"⟩], none, false⟩
      "compare file with ai and file with ml" false).1 =
      Outcome.ok (comparisonBlock ⟨"ai", "A"⟩ ⟨"ml", "B"⟩) :=
  (C2_comparison_context ⟨[⟨"ai", "A"⟩, ⟨"ml", "B"⟩], none, false⟩ false
    "compare file with ai and file with ml" "ai" "ml" ⟨"ai", "A"⟩ ⟨"ml", "B"⟩
    (by decide) (by decide) (by decide)).1

/-- C5: `ingest` appends the document as the last element of the store,
sets it as the active document unconditionally, and leaves all prior
store elements (and the comparison flag) unchanged. -/
theorem C5_ingest_frame (st : ServerState) (d : Document) :
    (ingest st d).fileCache = st.fileCache ++ [d] ∧
    (ingest st d).fileCache.take st.fileCache.length = st.fileCache ∧
    (ingest st d).fileCache.getLast? = some d ∧
    (ingest st d).activeFile = some d ∧
    (ingest st d).compareMode = st.compareMode := by
  refine ⟨rfl, ?_, ?_, ?_, rfl⟩
  · show (st.fileCache ++ [d]).take st.fileCache.length = st.fileCache
    exact List.take_left st.fileCache [d]
  · show (st.fileCache ++ [d]).getLast? = some d
    exact List.getLast?_concat st.fileCache
  · show (st.fileCache ++ [d]).getLast? = some d
    exact List.getLast?_concat st.fileCache

/-- C3 counterexample: with an empty store, no upload, active document
unset and the plain question "hello", the produced context is
"General Question:\n\nhello" — the question prefixed with a fixed
header — not the bare question text "hello" that the claim states. -/
theorem C3_counterexample :
    (resolveContext ⟨[], none, false⟩ "hello" false).1 =
      Outcome.ok "General Question:\n\nhello" ∧
    (resolveContext ⟨[], none, false⟩ "hello" false).1 ≠ Outcome.ok "hello" := by
  decide

/-- C3 (amended): for every request with an empty document store, no
uploaded file, no active document, and a question that does not match
the compare pattern, the produced context is the question text prefixed
with the literal "General Question:\n\n" header — it embeds the question
and no document content (the store is empty), but is not the bare
question text. -/
theorem C3_general_question (st : ServerState) (q : String)
    (hm : extractFileTopics q = none) (h2 : st.fileCache = [])
    (h3 : st.activeFile = none) :
    (resolveContext st q false).1 = Outcome.ok (generalQuestionBlock q) := by
  rw [resolveContext_no_compare st q false hm]
  have hc : (switchStep st q).fileCache = [] := by rw [switchStep_fileCache]; exact h2
  have ha : (switchStep st q).activeFile = none := by
    unfold switchStep
    split
    · simp [h2]
    · split
      · simp [h2]
      · split
        · exact h3
        · exact h3
  show materialize (switchStep st q) q false = Outcome.ok (generalQuestionBlock q)
  unfold materialize
  rw [hc, ha, if_neg (by simp)]
  simp

/-- Witness for the amended C3 at a concrete input: empty store, no
upload, question "hello". -/
theorem C3_general_question_witness :
    (resolveContext ⟨[], none, false⟩ "hello" false).1 =
      Outcome.ok (generalQuestionBlock "hello") :=
  C3_general_question ⟨[], none, false⟩ "hello" (by decide) rfl rfl

/-- C4 counterexample: with documents D1, D2 stored, the non-compare
question "first file both files" contains "both files", yet the context
is the content of D1 alone ("first file" is tested first and wins), not the
First/Second both-files block the claim states for every such
question. -/
theorem C4_counterexample :
    (resolveContext ⟨[⟨"t1", "c1"⟩, ⟨"t2", "c2"⟩], none, false⟩
        "first file both files" false).1 = Outcome.ok "c1" ∧
    (resolveContext ⟨[⟨"t1", "c1"⟩, ⟨"t2", "c2"⟩], none, false⟩
        "first file both files" false).1 ≠
      Outcome.ok (bothFilesBlock "c1" "c2") := by
  decide

/-- C4 (amended): for every store holding documents D1, D2 (in that
order) and possibly more, a non-compare-pattern question containing
"both files" — and containing neither of the higher-priority phrases
"first file" and "second file" — produces a context equal to the
concatenation of the contents of D1 and D2 labeled First File/Second
File,
ignoring any documents beyond index 1. -/
theorem C4_both_files (st : ServerState) (u : Bool) (q : String)
    (d1 d2 : Document) (rest : List Document)
    (hc : st.fileCache = d1 :: d2 :: rest)
    (hm : extractFileTopics q = none)
    (hb : strContains (lowerStr q) "both files" = true)
    (h1 : strContains (lowerStr q) "first file" = false)
    (h2 : strContains (lowerStr q) "second file" = false) :
    (resolveContext st q u).1 = Outcome.ok (bothFilesBlock d1.content d2.content) := by
  rw [resolveContext_no_compare st q u hm]
  show materialize (switchStep st q) q u = _
  rw [switchStep_both st q h1 h2 hb]
  exact materialize_both _ q u d1 d2 rest rfl hc

/-- Witness for the amended C4 at a concrete input: three stored
documents, question "use both files"; the context is built from the
first two documents only. -/
theorem C4_both_files_witness :
    (resolveContext ⟨[⟨"t1", "c1"⟩, ⟨"t2", "c2"⟩, ⟨"t3", "c3"⟩], none, false⟩
        "use both files" false).1 = Outcome.ok (bothFilesBlock "c1" "c2") :=
  C4_both_files ⟨[⟨"t1", "c1"⟩, ⟨"t2", "c2"⟩, ⟨"t3", "c3"⟩], none, false⟩ false
    "use both files" ⟨"t1", "c1"⟩ ⟨"t2", "c2"⟩ [⟨"t3", "c3"⟩] rfl
    (by decide) (by decide) (by decide) (by decide)

/-- C6: for every question not matching the compare pattern, the switch
phrases are tested case-insensitively (on the lowercased question) in
the order "first file", "second file", "both files" — "first file" wins
whenever it appears: it sets the active document to store element 0 and
clears comparison mode; otherwise "second file" sets element 1 and
clears comparison mode; otherwise "both files" sets comparison mode true
leaving the active document (and everything else) unchanged; a question
containing none of the phrases leaves the state unchanged. -/
theorem C6_switch_phrases (st : ServerState) (u : Bool) (q : String)
    (hm : extractFileTopics q = none) :
    (strContains (lowerStr q) "first file" = true →
       (resolveContext st q u).2 =
         { st with activeFile := st.fileCache[0]?, compareMode := false }) ∧
    (strContains (lowerStr q) "first file" = false →
     strContains (lowerStr q) "second file" = true →
       (resolveContext st q u).2 =
         { st with activeFile := st.fileCache[1]?, compareMode := false }) ∧
    (strContains (lowerStr q) "first file" = false →
     strContains (lowerStr q) "second file" = false →
     strContains (lowerStr q) "both files" = true →
       (resolveContext st q u).2 = { st with compareMode := true }) ∧
    (strContains (lowerStr q) "first file" = false →
     strContains (lowerStr q) "second file" = false →
     strContains (lowerStr q) "both files" = false →
       (resolveContext st q u).2 = st) := by
  rw [resolveContext_no_compare st q u hm]
  exact ⟨fun h1 => switchStep_first st q h1,
         fun h1 h2 => switchStep_second st q h1 h2,
         fun h1 h2 hb => switchStep_both st q h1 h2 hb,
         fun h1 h2 hb => switchStep_none st q h1 h2 hb⟩

/-- Witness for C6 at a concrete input: the question
"Show the FIRST FILE" (mixed case, no compare pattern) switches the
active document to store element 0 and clears comparison mode. -/
theorem C6_switch_phrases_witness :
    (resolveContext ⟨[⟨"a", "A"⟩, ⟨"b", "B"⟩], some ⟨"b", "B"⟩, true⟩
        "Show the FIRST FILE" false).2 =
      ⟨[⟨"a", "A"⟩, ⟨"b", "B"⟩], some ⟨"a", "A"⟩, false⟩ := by
  have h := (C6_switch_phrases ⟨[⟨"a", "A"⟩, ⟨"b", "B"⟩], some ⟨"b", "B"⟩, true⟩
    false "Show the FIRST FILE" (by decide)).1 (by decide)
  exact h.trans (by decide)

/-- C7: topic matching for comparison is substring-based and
case-insensitive: for every stored document whose (lowercased) topic
string contains the (lowercased) requested fragment as a substring, the
lookup predicate matches that document and the store lookup succeeds.
The lowercasing hypotheses hold for every value the program produces:
stored topics are lowercased on ingestion (line 54) and requested
fragments are lowercased by `extractFileTopics` (line 36). -/
theorem C7_topic_matching (cache : List Document) (t : String) (d : Document)
    (hmem : d ∈ cache)
    (hdl : d.context = lowerStr d.context)
    (htl : t = lowerStr t)
    (hsub : strContains (lowerStr d.context) (lowerStr t) = true) :
    strContains d.context t = true ∧ (findByTopic cache t).isSome = true := by
  have hd : strContains d.context t = true := by rw [hdl, htl]; exact hsub
  refine ⟨hd, ?_⟩
  unfold findByTopic
  simpa using List.find?_isSome.mpr ⟨d, hmem, hd⟩

/-- Witness for C7 at the example given in the claim: the stored topic
"introduction to blockchain technology" matches the requested fragment
"blockchain". -/
theorem C7_topic_matching_witness :
    strContains (Document.mk "introduction to blockchain technology" "doc").context
      "blockchain" = true ∧
    (findByTopic [⟨"introduction to blockchain technology", "doc"⟩]
      "blockchain").isSome = true :=
  C7_topic_matching [⟨"introduction to blockchain technology", "doc"⟩]
    "blockchain" ⟨"introduction to blockchain technology", "doc"⟩
    (by decide) (by decide) (by decide) (by decide)

/-- C8: for every question, upload and store/active/compare state, the
handler never crashes (no path dereferences a missing store element:
the fallback to the last element of the store is reached only with a
nonempty store), and `ComparisonUnavailable` is the only explicit
failure: it arises exactly from a compare-pattern question one of whose
topics resolves to no stored document; every other path produces some
context string. -/
theorem C8_single_failure (st : ServerState) (up : Option (String × String)) (q : String) :
    (handleUpload st up q).1 ≠ Outcome.crash ∧
    ((handleUpload st up q).1 = Outcome.comparisonUnavailable →
      ∃ t1 t2, extractFileTopics q = some (t1, t2) ∧
        (findByTopic (afterIngest st up).fileCache t1 = none ∨
         findByTopic (afterIngest st up).fileCache t2 = none)) := by
  have hne : up.isSome = true → (afterIngest st up).fileCache ≠ [] := by
    cases up with
    | none => intro h; simp at h
    | some p =>
      intro _
      obtain ⟨t, c⟩ := p
      show st.fileCache ++ [mkDocument t c] ≠ []
      simp
  constructor
  · exact resolveContext_ne_crash (afterIngest st up) q up.isSome hne
  · intro hcu
    unfold handleUpload at hcu
    cases hm : extractFileTopics q with
    | none =>
      exfalso
      rw [resolveContext_no_compare _ q _ hm] at hcu
      exact materialize_ne_unavailable _ q _ hcu
    | some pair =>
      obtain ⟨t1, t2⟩ := pair
      refine ⟨t1, t2, rfl, ?_⟩
      cases h1 : findByTopic (afterIngest st up).fileCache t1 with
      | none => exact Or.inl rfl
      | some f1 =>
        cases h2 : findByTopic (afterIngest st up).fileCache t2 with
        | none => exact Or.inr rfl
        | some f2 =>
          exfalso
          rw [resolveContext_compare_ok _ q _ t1 t2 f1 f2 hm h1 h2] at hcu
          exact Outcome.noConfusion hcu

/-- Witness for C8 at a concrete input: empty store, no upload, a
compare question; the error occurs and the second conjunct yields the
failing topics. -/
theorem C8_single_failure_witness :
    ∃ t1 t2, extractFileTopics "compare file with a and file with b" = some (t1, t2) ∧
      (findByTopic (afterIngest ⟨[], none, false⟩ none).fileCache t1 = none ∨
       findByTopic (afterIngest ⟨[], none, false⟩ none).fileCache t2 = none) :=
  (C8_single_failure ⟨[], none, false⟩ none "compare file with a and file with b").2
    (by decide)

/-- C9: when a request uploads a file together with a question whose
comparison cannot be satisfied, the `ComparisonUnavailable` error is
returned with the ingest side effects already applied: the new document
(its inferred topic lowercased) remains appended to the store and
remains the active document; the error performs no rollback. -/
theorem C9_error_keeps_ingest (st : ServerState) (q topic content t1 t2 : String)
    (hm : extractFileTopics q = some (t1, t2))
    (hfail : findByTopic (st.fileCache ++ [mkDocument topic content]) t1 = none ∨
             findByTopic (st.fileCache ++ [mkDocument topic content]) t2 = none) :
    (handleUpload st (some (topic, content)) q).1 = Outcome.comparisonUnavailable ∧
    (handleUpload st (some (topic, content)) q).2.fileCache =
      st.fileCache ++ [mkDocument topic content] ∧
    (handleUpload st (some (topic, content)) q).2.activeFile =
      some (mkDocument topic content) := by
  unfold handleUpload
  rw [show afterIngest st (some (topic, content)) =
        ingest st (mkDocument topic content) from rfl]
  rw [resolveContext_compare_fail _ q _ t1 t2 hm hfail]
  refine ⟨rfl, rfl, ?_⟩
  show (st.fileCache ++ [mkDocument topic content]).getLast? =
    some (mkDocument topic content)
  exact List.getLast?_concat st.fileCache

/-- Witness for C9 at a concrete input: empty store, upload of a
document about "x", compare question about "a" and "b"; the error is
returned (and by C9 the ingested document stays in place). -/
theorem C9_error_keeps_ingest_witness :
    (handleUpload ⟨[], none, false⟩ (some ("x", "c"))
      "compare file with a and file with b").1 = Outcome.comparisonUnavailable :=
  (C9_error_keeps_ingest ⟨[], none, false⟩ "compare file with a and file with b"
    "x" "c" "a" "b" (by decide) (Or.inl (by decide))).1

/-- C10: ingesting a new document never clears comparison mode: from a
state with comparison mode on and at least two stored documents, a
request that uploads a new document with a plain question (no compare
pattern, no switch phrase) still gets the contents of store elements 0
and 1 as context, not the content of the newly uploaded document. -/
theorem C10_ingest_keeps_compare (st : ServerState) (topic content q : String)
    (d1 d2 : Document) (rest : List Document)
    (hcm : st.compareMode = true) (hc : st.fileCache = d1 :: d2 :: rest)
    (hm : extractFileTopics q = none)
    (h1 : strContains (lowerStr q) "first file" = false)
    (h2 : strContains (lowerStr q) "second file" = false)
    (hb : strContains (lowerStr q) "both files" = false) :
    (handleUpload st (some (topic, content)) q).1 =
      Outcome.ok (bothFilesBlock d1.content d2.content) := by
  unfold handleUpload
  rw [show afterIngest st (some (topic, content)) =
        ingest st (mkDocument topic content) from rfl]
  rw [resolveContext_no_compare _ q _ hm]
  show materialize (switchStep (ingest st (mkDocument topic content)) q) q _ = _
  rw [switchStep_none _ q h1 h2 hb]
  refine materialize_both _ q _ d1 d2 (rest ++ [mkDocument topic content]) hcm ?_
  show st.fileCache ++ [mkDocument topic content] =
    d1 :: d2 :: (rest ++ [mkDocument topic content])
  rw [hc]
  simp

/-- Witness for C10 at a concrete input: two stored documents, compare
mode on, a fresh upload and the plain question "summarize"; the context
is still built from stored elements 0 and 1. -/
theorem C10_ingest_keeps_compare_witness :
    (handleUpload ⟨[⟨"t1", "c1"⟩, ⟨"t2", "c2"⟩], none, true⟩ (some ("t3", "c3"))
      "summarize").1 = Outcome.ok (bothFilesBlock "c1" "c2") :=
  C10_ingest_keeps_compare ⟨[⟨"t1", "c1"⟩, ⟨"t2", "c2"⟩], none, true⟩ "t3" "c3"
    "summarize" ⟨"t1", "c1"⟩ ⟨"t2", "c2"⟩ [] rfl rfl
    (by decide) (by decide) (by decide) (by decide)
